import Mathlib

/-!
Shallow embedding of the BK_SYS_NET tracker-mediated P2P chat core
(src/daemon/peer.py and src/daemon/tracker.py).

Conventions of the embedding:
* Timestamps (`time.time()`) are modelled as exact rationals (`Rat`).
* Python dicts keyed by strings are modelled as association lists
  `List (String × α)`; `dict[k] = v` is `aset`, `dict.get(k)` is `alookup`.
  Python dict insertion order (new keys appended at the end, assignment to an
  existing key keeps its position) is preserved by these operations.
* JSON fields that the code tests for Python truthiness (`or`, `not x`) are
  modelled as `Option` where `none` stands for the whole falsy class
  (absent, `null`, `''`, `{}`) whenever only the truthiness is observable on
  the modelled path; fields accessed with `obj['k']` (which raises `KeyError`
  when absent) are modelled as `Option` where `none` stands for an absent key.
* Network delivery inside a fan-out (`_forward_to_peers`, the body of the
  `try` around the socket I/O) is abstracted by an oracle
  `deliver : PeerRec → Option String`: `none` means the POST succeeded,
  `some e` means some exception with text `e` was raised and caught.
-/

namespace BKSysNet

/-- Association-list lookup, the embedding of `dict.get(k)`. -/
def alookup {α : Type} : List (String × α) → String → Option α
  | [], _ => none
  | (k', v) :: rest, k => if k' = k then some v else alookup rest k

/-- Association-list assignment, the embedding of `dict[k] = v`: an existing
key keeps its position and gets the new value, a new key is appended. -/
def aset {α : Type} (l : List (String × α)) (k : String) (v : α) :
    List (String × α) :=
  if l.any (fun kv => kv.1 = k) then
    l.map (fun kv => if kv.1 = k then (k, v) else kv)
  else l ++ [(k, v)]

/-! ## Peer agent (src/daemon/peer.py) -/

/-- The `from` dict of an inbound payload: `{ip, port, name}`.
`port` is the integer the code obtains via `int(sender.get('port') or 0)`. -/
structure Sender where
  ip : String
  port : Int
  name : Option String
deriving Repr, DecidableEq

/-- The parsed body of a `/p2p/receive` POST, after
`json.loads` (or the `{'raw': content}` fallback).
`sender = none` models an absent or non-dict `from` field;
`channel = none` models an absent or falsy `channel`;
`message = none` models an absent or falsy `message`;
`raw` is `some content` exactly when the JSON parse failed. -/
structure Payload where
  sender : Option Sender
  channel : Option String
  message : Option String
  raw : Option String
deriving Repr, DecidableEq

/-- The dedupe key computed in `Peer._handle_conn`:
`'|'.join((str(from_ip), str(from_port), str(channel or 'general'),
str(message or raw or '')))`. -/
def dedupeKey (p : Payload) : String :=
  let fip := match p.sender with | some s => s.ip | none => ""
  let fport : Int := match p.sender with | some s => s.port | none => 0
  let ch := match p.channel with | some c => c | none => "general"
  let msg := match p.message with
             | some m => m
             | none => match p.raw with | some r => r | none => ""
  fip ++ "|" ++ toString fport ++ "|" ++ ch ++ "|" ++ msg

/-- A message stored in the peer inbox: the parsed payload with the
receipt time stamped into it (`obj['ts'] = now_ts`). -/
structure StoredMsg where
  payload : Payload
  ts : Rat
deriving Repr, DecidableEq

/-- Mutable state of one `Peer`: the inbox `self.messages` and the dedupe
cache `self._recent_keys`. -/
structure PeerState where
  messages : List StoredMsg
  recentKeys : List (String × Rat)
deriving Repr, DecidableEq

/-- Embeds `last = self._recent_keys.get(key); if last and (now_ts - last) < 2.0`.
Note the Python truthiness test on `last`: a stored timestamp of exactly `0`
would not count as a hit. -/
def isDup (recent : List (String × Rat)) (key : String) (now : Rat) : Bool :=
  match alookup recent key with
  | none => false
  | some l => if l = 0 then false else decide (now - l < 2)

/-- The opportunistic prune: once the cache holds more than 500 entries,
drop every entry older than 5 seconds. -/
def pruneRecent (recent : List (String × Rat)) (now : Rat) :
    List (String × Rat) :=
  if recent.length > 500 then
    recent.filter (fun kv => decide (¬ (kv.2 < now - 5)))
  else recent

inductive RecvStatus
  | ok
  | duplicate_ignored
deriving Repr, DecidableEq

/-- The `/p2p/receive` handler body of `Peer._handle_conn`: stamp the payload
with the receipt time, compute the dedupe key; on a fresh-enough prior entry
answer `duplicate_ignored` without touching any state; otherwise record the
key, opportunistically prune, append to the inbox and answer `ok`. -/
def receiveInbound (st : PeerState) (p : Payload) (now : Rat) :
    PeerState × RecvStatus :=
  let key := dedupeKey p
  if isDup st.recentKeys key now then
    (st, .duplicate_ignored)
  else
    let recent := pruneRecent (aset st.recentKeys key now) now
    (⟨st.messages ++ [⟨p, now⟩], recent⟩, .ok)

/-- The `GET /peer-inbox` handler: `out = self.messages.copy();
self.messages.clear()`; returns the copy and the cleared state. -/
def drainInbox (st : PeerState) : List StoredMsg × PeerState :=
  (st.messages, { st with messages := [] })

/-! ## Tracker (src/daemon/tracker.py) -/

/-- Embeds the `_peer_id` helper: the string `ip` `:` `port`. -/
def peerId (ip : String) (port : Int) : String := ip ++ ":" ++ toString port

/-- A value of the `PEERS` map: `{**obj, 'ts': time.time()}` for a
registration body `{ip, port, name}` (`name` may be absent, the code never
requires it). -/
structure PeerRec where
  ip : String
  port : Int
  name : Option String
  ts : Rat
deriving Repr, DecidableEq

/-- Computes `_peer_id` of a stored `PEERS` value. -/
def recId (r : PeerRec) : String := peerId r.ip r.port

/-- A JSON peer dict as it appears in request bodies (`from`, `peer`):
each field is `none` when the key is absent. -/
structure RawPeer where
  ip : Option String
  port : Option Int
  name : Option String
deriving Repr, DecidableEq

/-- Computes `_peer_id(p)` on a raw request dict: `p['ip']` is evaluated first, so a
missing `ip` raises `KeyError('ip')` before a missing `port` can. `none`
models the raised `KeyError` (caught by the top-level handler). -/
def rawPeerId (p : RawPeer) : Option String :=
  match p.ip with
  | none => none
  | some ip => match p.port with
               | none => none
               | some port => some (peerId ip port)

/-- One message of a channel log: `{'from': from_peer, 'message': message,
'ts': time.time()}` — `from` is stored verbatim as the raw request dict. -/
structure Entry where
  sender : RawPeer
  message : String
  ts : Rat
deriving Repr, DecidableEq

/-- A value of the `CHANNELS` map: `{'peers': set(peer_id), 'messages': [...]}`.
The member set is modelled as a duplicate-free list. -/
structure Channel where
  members : List String
  messages : List Entry
deriving Repr, DecidableEq

/-- Embeds `set.add`: insert the pid if it is not already a member. -/
def addMember (members : List String) (pid : String) : List String :=
  if pid ∈ members then members else members ++ [pid]

/-- The tracker's global state: the `PEERS` and `CHANNELS` maps. -/
structure TrackerState where
  peers : List (String × PeerRec)
  channels : List (String × Channel)
deriving Repr, DecidableEq

/-- One `{'peer': pid, 'ok': ..., 'error': ...}` element of the `forwarded`
list built by `_forward_to_peers`. -/
structure FwdResult where
  peer : String
  ok : Bool
  error : Option String
deriving Repr, DecidableEq

/-- Embeds `if exclude_pid and pid == exclude_pid: continue` — the exclusion applies
only when `exclude_pid` is truthy (non-`None`, non-empty). -/
def shouldSkip (excl : Option String) (pid : String) : Bool :=
  match excl with
  | none => false
  | some e => if e = "" then false else decide (pid = e)

/-- Embeds `_forward_to_peers(peers, entry, exclude_pid)`: walk the target list in
order, skip the excluded pid, and for each remaining target record
`{'peer': pid, 'ok': True}` on success or `{'peer': pid, 'ok': False,
'error': str(e)}` when the attempt raised — the loop never aborts early. -/
def forwardToPeers (deliver : PeerRec → Option String) :
    List PeerRec → Option String → List FwdResult
  | [], _ => []
  | p :: rest, excl =>
    if shouldSkip excl (recId p) then forwardToPeers deliver rest excl
    else
      (match deliver p with
       | none => FwdResult.mk (recId p) true none
       | some e => FwdResult.mk (recId p) false (some e))
        :: forwardToPeers deliver rest excl

/-- Response bodies produced by `handle_http` / `build_response`, one
constructor per distinct shape; the HTTP status is recovered by
`statusOf`. `serverError` is the top-level `except` path
(`build_response(500, {'error': str(e)})`). -/
inductive TResp
  | submitOk (peersCount : Nat)
  | badRequest (error : String) (detail : Option String)
  | serverError (error : String)
  | addOk
  | peerList (peers : List PeerRec)
  | chanList (channel : String) (peers : List PeerRec) (messages : List Entry)
  | bcastOk (peers : List PeerRec) (forwarded : List FwdResult)
  | notFound
deriving Repr, DecidableEq

/-- The HTTP status `build_response` is called with for each response shape. -/
def statusOf : TResp → Nat
  | .submitOk _ => 200
  | .badRequest _ _ => 400
  | .serverError _ => 500
  | .addOk => 200
  | .peerList _ => 200
  | .chanList _ _ _ => 200
  | .bcastOk _ _ => 200
  | .notFound => 404

/-- A `POST /submit-info` body after `json.loads(content or '{}')`:
`malformed d` is a parse failure with message `d`; otherwise the three
fields, `none` when the key is absent. -/
inductive SubmitBody
  | malformed (detail : String)
  | obj (ip : Option String) (port : Option Int) (name : Option String)
deriving Repr, DecidableEq

/-- The `/submit-info` route: on parse failure answer 400; `_peer_id(obj)`
raises `KeyError` on a missing `ip` or `port` (caught into a 500 before any
mutation); otherwise upsert `PEERS[pid]` and answer
`{'status':'ok','peers_count': len(PEERS)}`. -/
def submitInfo (body : SubmitBody) (now : Rat) (st : TrackerState) :
    TrackerState × TResp :=
  match body with
  | .malformed d => (st, .badRequest "invalid json" (some d))
  | .obj oip oport oname =>
    match oip with
    | none => (st, .serverError "KeyError: ip")
    | some ip =>
      match oport with
      | none => (st, .serverError "KeyError: port")
      | some port =>
        let pid := peerId ip port
        let peers := aset st.peers pid ⟨ip, port, oname, now⟩
        ({ st with peers := peers }, .submitOk peers.length)

/-- The `GET /get-list` route. `chanQ = none` models an absent or empty
`channel` query parameter (the code tests `if channel:`). With a channel,
`CHANNELS.get(channel, {'peers':set(),'messages':[]})` reads without
inserting, and the returned peers are the members that are registered. -/
def getList (chanQ : Option String) (st : TrackerState) :
    TrackerState × TResp :=
  match chanQ with
  | none => (st, .peerList (st.peers.map (fun kv => kv.2)))
  | some c =>
    let ch := (alookup st.channels c).getD ⟨[], []⟩
    (st, .chanList c (ch.members.filterMap (fun p => alookup st.peers p))
          ch.messages)

/-- A `POST /add-list` body: `channel = none` models an absent or falsy
channel, `peer = none` an absent or falsy peer dict (the code tests
`if not channel or not peer`). -/
inductive AddBody
  | malformed (detail : String)
  | obj (channel : Option String) (peer : Option RawPeer)
deriving Repr, DecidableEq

/-- The `/add-list` route: validate, then `CHANNELS.setdefault(channel,
{'peers': set(), 'messages': []})` and add the pid to the member set. -/
def addList (body : AddBody) (st : TrackerState) : TrackerState × TResp :=
  match body with
  | .malformed d => (st, .badRequest "invalid json" (some d))
  | .obj ochan opeer =>
    match ochan, opeer with
    | some c, some p =>
      (match rawPeerId p with
       | none => (st, .serverError "KeyError")
       | some pid =>
         let ch := (alookup st.channels c).getD ⟨[], []⟩
         let chans := aset st.channels c ⟨addMember ch.members pid, ch.messages⟩
         ({ st with channels := chans }, .addOk))
    | _, _ => (st, .badRequest "missing channel or peer" none)

/-- A `POST /broadcast-peer` body: `fromPeer = none` models an absent or
falsy `from`, `channel = none` an absent or falsy channel, and
`message = none` an absent or `null` message (the code tests
`message is None`, so an empty string is a valid message). -/
inductive BcastBody
  | malformed (detail : String)
  | obj (fromPeer : Option RawPeer) (channel : Option String)
        (message : Option String)
deriving Repr, DecidableEq

/-- The `/broadcast-peer` route: validate; for `channel == 'private'` touch
nothing and fan out to nobody; otherwise `setdefault` the channel, append
the entry to its log, add the sender to its member set, snapshot the
registered members and fan out to the snapshot minus the sender. -/
def broadcastPeer (deliver : PeerRec → Option String) (body : BcastBody)
    (now : Rat) (st : TrackerState) : TrackerState × TResp :=
  match body with
  | .malformed d => (st, .badRequest "invalid json" (some d))
  | .obj ofrom ochan omsg =>
    match ofrom, ochan, omsg with
    | some fp, some c, some msg =>
      (match rawPeerId fp with
       | none => (st, .serverError "KeyError")
       | some pid =>
         let entry : Entry := ⟨fp, msg, now⟩
         if c = "private" then
           (st, .bcastOk [] [])
         else
           let ch := (alookup st.channels c).getD ⟨[], []⟩
           let ch' : Channel :=
             ⟨addMember ch.members pid, ch.messages ++ [entry]⟩
           let peers := ch'.members.filterMap (fun q => alookup st.peers q)
           ({ st with channels := aset st.channels c ch' },
            .bcastOk peers (forwardToPeers deliver peers (some pid))))
    | _, _, _ => (st, .badRequest "missing fields" none)

/-- The client flow of `Peer.register_to_tracker`: POST `/submit-info` with
`{ip, port, name}`, then (on success) POST `/add-list` joining channel
`'general'` with the same identity (`add_to_channel('general', reg_ip)`). -/
def registerFlow (ip : String) (port : Int) (name : String) (now : Rat)
    (st : TrackerState) : TrackerState :=
  let st1 := (submitInfo (.obj (some ip) (some port) (some name)) now st).1
  (addList (.obj (some "general") (some ⟨some ip, some port, some name⟩))
    st1).1

/-- The observable outcome of an accepted (non-duplicate) inbound delivery:
status `ok`, the stamped message appended at the end of the inbox, and the
dedupe key recorded with the receipt time. -/
def okOutcome (st : PeerState) (p : Payload) (t : Rat) : Prop :=
  (receiveInbound st p t).2 = .ok ∧
  (receiveInbound st p t).1.messages = st.messages ++ [⟨p, t⟩] ∧
  alookup (receiveInbound st p t).1.recentKeys (dedupeKey p) = some t

/-- The fan-out result `_forward_to_peers` produces for one attempted
target, as a function of the delivery oracle. -/
def fwdOutcome (deliver : PeerRec → Option String) (p : PeerRec) : FwdResult :=
  match deliver p with
  | none => ⟨recId p, true, none⟩
  | some e => ⟨recId p, false, some e⟩

/-- The number of entries of the peer table carrying a given identity key. -/
def countKey (l : List (String × PeerRec)) (k : String) : Nat :=
  (l.filter (fun kv => kv.1 = k)).length

/-! ## Lemmas about the association-list operations -/

theorem alookup_nil {α : Type} (k : String) : alookup ([] : List (String × α)) k = none := rfl

theorem alookup_cons {α : Type} (kv : String × α) (l : List (String × α)) (k : String) :
    alookup (kv :: l) k = if kv.1 = k then some kv.2 else alookup l k := rfl

theorem any_key_eq_false_iff {α : Type} (l : List (String × α)) (k : String) :
    (l.any (fun kv => kv.1 = k) = false) ↔ alookup l k = none := by
  induction l with
  | nil => simp [alookup]
  | cons hd tl ih =>
    by_cases h : hd.1 = k <;> simp [alookup_cons, h, ih]

theorem alookup_append_of_none {α : Type} {l : List (String × α)} {k : String}
    (h : alookup l k = none) (l' : List (String × α)) :
    alookup (l ++ l') k = alookup l' k := by
  induction l with
  | nil => simp
  | cons hd tl ih =>
    rw [alookup_cons] at h
    by_cases hk : hd.1 = k
    · rw [if_pos hk] at h
      exact (Option.some_ne_none _ h).elim
    · rw [if_neg hk] at h
      rw [List.cons_append, alookup_cons, if_neg hk]
      exact ih h

theorem alookup_map_replace {α : Type} (l : List (String × α)) (k : String) (v : α) :
    alookup (l.map (fun kv => if kv.1 = k then (k, v) else kv)) k
      = if l.any (fun kv => kv.1 = k) then some v else none := by
  induction l with
  | nil => simp [alookup]
  | cons hd tl ih =>
    by_cases h : hd.1 = k
    · simp [alookup_cons, h, ih]
    · have hd2 : (decide (hd.1 = k)) = false := by simp [h]
      simp only [List.map_cons, List.any_cons]
      rw [if_neg h, alookup_cons, if_neg h, ih]
      simp only [hd2, Bool.false_or]

theorem alookup_aset {α : Type} (l : List (String × α)) (k : String) (v : α) :
    alookup (aset l k v) k = some v := by
  unfold aset
  by_cases h : l.any (fun kv => kv.1 = k) = true
  · rw [if_pos h, alookup_map_replace, if_pos h]
  · have hf : l.any (fun kv => kv.1 = k) = false := by
      exact Bool.not_eq_true _ ▸ (by simpa using h)
    rw [if_neg (by simp [hf]), alookup_append_of_none ((any_key_eq_false_iff l k).mp hf)]
    simp [alookup]

theorem aset_keeps_val {α : Type} (l : List (String × α)) (k : String) (v : α) :
    ∀ kv ∈ aset l k v, kv.1 = k → kv.2 = v := by
  intro kv hmem hk
  unfold aset at hmem
  by_cases h : l.any (fun kv => kv.1 = k) = true
  · rw [if_pos h] at hmem
    rcases List.mem_map.mp hmem with ⟨kv', _, rfl⟩
    by_cases h2 : kv'.1 = k
    · rw [if_pos h2]
    · rw [if_neg h2] at hk ⊢
      exact absurd hk h2
  · rw [if_neg (by simpa using h)] at hmem
    rcases List.mem_append.mp hmem with h1 | h1
    · exact absurd (List.any_eq_true.mpr ⟨kv, h1, by simp [hk]⟩) h
    · rw [List.mem_singleton.mp h1]

theorem alookup_filter_of_uniform {α : Type} (k : String) (v : α)
    (q : String × α → Bool) (hq : q (k, v) = true) :
    ∀ l : List (String × α), (∀ kv ∈ l, kv.1 = k → kv.2 = v) →
      alookup l k = some v → alookup (l.filter q) k = some v := by
  intro l
  induction l with
  | nil => intro _ h; simp [alookup] at h
  | cons hd tl ih =>
    intro hval hl
    rw [alookup_cons] at hl
    by_cases hk : hd.1 = k
    · have h2 : hd.2 = v := hval hd (by simp) hk
      have hdk : hd = (k, v) := by
        rcases hd with ⟨a, b⟩
        simp only at hk h2
        rw [hk, h2]
      rw [List.filter_cons, hdk, hq]
      simp [alookup_cons]
    · rw [if_neg hk] at hl
      have htl := ih (fun kv h hk2 => hval kv (List.mem_cons_of_mem _ h) hk2) hl
      rw [List.filter_cons]
      by_cases hqh : q hd = true
      · rw [if_pos (by simp [hqh]), alookup_cons, if_neg hk]
        exact htl
      · rw [if_neg (by simpa using hqh)]
        exact htl

theorem alookup_pruneRecent_aset (l : List (String × Rat)) (k : String) (t : Rat) :
    alookup (pruneRecent (aset l k t) t) k = some t := by
  unfold pruneRecent
  by_cases h : (aset l k t).length > 500
  · rw [if_pos h]
    refine alookup_filter_of_uniform k t _ ?_ _ (aset_keeps_val l k t) (alookup_aset l k t)
    simp only [decide_eq_true_eq]
    intro hc
    linarith
  · rw [if_neg h]
    exact alookup_aset l k t

theorem mem_addMember_self (members : List String) (pid : String) :
    pid ∈ addMember members pid := by
  unfold addMember
  by_cases h : pid ∈ members
  · rw [if_pos h]; exact h
  · rw [if_neg h]; simp

theorem any_aset_self {α : Type} (l : List (String × α)) (k : String) (v : α) :
    (aset l k v).any (fun kv => kv.1 = k) = true := by
  unfold aset
  by_cases h : l.any (fun kv => kv.1 = k) = true
  · rw [if_pos h]
    rcases List.any_eq_true.mp h with ⟨kv', hm, hk⟩
    refine List.any_eq_true.mpr ⟨(k, v), List.mem_map.mpr ⟨kv', hm, ?_⟩, by simp⟩
    rw [if_pos (by simpa using hk)]
  · rw [if_neg (by simpa using h)]
    simp

theorem length_aset_of_any {α : Type} {l : List (String × α)} {k : String} (v : α)
    (h : l.any (fun kv => kv.1 = k) = true) :
    (aset l k v).length = l.length := by
  unfold aset
  rw [if_pos h, List.length_map]

theorem countKey_map_replace (l : List (String × PeerRec)) (k : String) (v : PeerRec) :
    countKey (l.map (fun kv => if kv.1 = k then (k, v) else kv)) k = countKey l k := by
  induction l with
  | nil => rfl
  | cons hd tl ih =>
    simp only [countKey, List.map_cons, List.filter_cons] at ih ⊢
    by_cases h : hd.1 = k
    · rw [if_pos h, if_pos (by simp), if_pos (by simpa using h)]
      simpa using ih
    · rw [if_neg h, if_neg (by simpa using h), if_neg (by simpa using h)]
      exact ih

theorem countKey_eq_zero_of_not_mem {l : List (String × PeerRec)} {k : String}
    (h : k ∉ l.map Prod.fst) : countKey l k = 0 := by
  induction l with
  | nil => rfl
  | cons hd tl ih =>
    simp only [List.map_cons, List.mem_cons, not_or] at h
    have hk : ¬ (hd.1 = k) := fun hh => h.1 hh.symm
    simp only [countKey, List.filter_cons]
    rw [if_neg (by simpa using hk)]
    exact ih h.2

theorem countKey_eq_one {l : List (String × PeerRec)} {k : String}
    (hnd : (l.map Prod.fst).Nodup)
    (h : l.any (fun kv => kv.1 = k) = true) : countKey l k = 1 := by
  induction l with
  | nil => simp at h
  | cons hd tl ih =>
    simp only [List.map_cons, List.nodup_cons] at hnd
    by_cases hk : hd.1 = k
    · have h0 : countKey tl k = 0 :=
        countKey_eq_zero_of_not_mem (by rw [← hk]; exact hnd.1)
      simp only [countKey, List.filter_cons] at h0 ⊢
      rw [if_pos (by simpa using hk)]
      simpa using h0
    · simp only [List.any_cons] at h
      rcases Bool.or_eq_true_iff.mp h with h1 | h1
      · exact absurd (by simpa using h1) hk
      · have := ih hnd.2 h1
        simp only [countKey, List.filter_cons] at this ⊢
        rw [if_neg (by simpa using hk)]
        exact this

theorem countKey_append_single (l : List (String × PeerRec)) (k : String) (v : PeerRec) :
    countKey (l ++ [(k, v)]) k = countKey l k + 1 := by
  simp [countKey, List.filter_append]

theorem countKey_aset_of_nodup {l : List (String × PeerRec)} {k : String} (v : PeerRec)
    (hnd : (l.map Prod.fst).Nodup) : countKey (aset l k v) k = 1 := by
  unfold aset
  by_cases h : l.any (fun kv => kv.1 = k) = true
  · rw [if_pos h, countKey_map_replace]
    exact countKey_eq_one hnd h
  · have hf : l.any (fun kv => kv.1 = k) = false := by
      rwa [Bool.not_eq_true] at h
    have hnm : k ∉ l.map Prod.fst := by
      intro hmem
      rcases List.mem_map.mp hmem with ⟨kv, hkv, hfst⟩
      exact h (List.any_eq_true.mpr ⟨kv, hkv, by simp [hfst]⟩)
    rw [if_neg (by simp [hf]), countKey_append_single,
      countKey_eq_zero_of_not_mem hnm]

theorem countKey_aset_existing {l : List (String × PeerRec)} {k : String} (v : PeerRec)
    (h : l.any (fun kv => kv.1 = k) = true) :
    countKey (aset l k v) k = countKey l k := by
  unfold aset
  rw [if_pos h, countKey_map_replace]

/-! ## Lemmas about the inbound-dedupe branch -/

theorem isDup_true_of_lookup {l : List (String × Rat)} {k : String} {t last : Rat}
    (hl : alookup l k = some last) (h0 : last ≠ 0) (hw : t - last < 2) :
    isDup l k t = true := by
  unfold isDup
  rw [hl]
  show (if last = 0 then false else decide (t - last < 2)) = true
  rw [if_neg h0]
  simpa using hw

theorem isDup_false_of_lookup_ge {l : List (String × Rat)} {k : String} {t last : Rat}
    (hl : alookup l k = some last) (hw : 2 ≤ t - last) :
    isDup l k t = false := by
  unfold isDup
  rw [hl]
  show (if last = 0 then false else decide (t - last < 2)) = false
  by_cases h0 : last = 0
  · rw [if_pos h0]
  · rw [if_neg h0]
    simp only [decide_eq_false_iff_not, not_lt]
    linarith

theorem isDup_false_of_lookup_none {l : List (String × Rat)} {k : String} {t : Rat}
    (hl : alookup l k = none) : isDup l k t = false := by
  unfold isDup
  rw [hl]

theorem receive_dup_eq (st : PeerState) (p : Payload) (t : Rat)
    (h : isDup st.recentKeys (dedupeKey p) t = true) :
    receiveInbound st p t = (st, .duplicate_ignored) := by
  unfold receiveInbound
  rw [if_pos h]

theorem receive_ok (st : PeerState) (p : Payload) (t : Rat)
    (h : isDup st.recentKeys (dedupeKey p) t = false) : okOutcome st p t := by
  unfold okOutcome receiveInbound
  rw [if_neg (by simp [h])]
  exact ⟨rfl, rfl, alookup_pruneRecent_aset _ _ _⟩

/-! ## Claim theorems -/

/-- C1: on `/p2p/receive`, if the dedupe key has an entry younger than 2
seconds (any actually recorded receipt time is positive), the response is
`duplicate_ignored` and the message is not appended (the whole state is
returned untouched); otherwise the key is recorded with the receipt time,
the stamped message is appended to the inbox and the response is `ok`.
In particular an identical payload delivered twice within 2 seconds yields
`ok` then `duplicate_ignored`, and delivered again once 2 seconds have
passed since the first acceptance yields `ok`. -/
theorem receive_dedupe_window (st : PeerState) (p : Payload) (t : Rat) :
    (∀ last : Rat, alookup st.recentKeys (dedupeKey p) = some last → 0 < last →
      t - last < 2 → receiveInbound st p t = (st, .duplicate_ignored)) ∧
    (∀ last : Rat, alookup st.recentKeys (dedupeKey p) = some last →
      2 ≤ t - last → okOutcome st p t) ∧
    (alookup st.recentKeys (dedupeKey p) = none → okOutcome st p t) ∧
    (∀ t1 t2 t3 : Rat, alookup st.recentKeys (dedupeKey p) = none → 0 < t1 →
      t2 - t1 < 2 → 2 ≤ t3 - t1 →
      (receiveInbound st p t1).2 = .ok ∧
      (receiveInbound (receiveInbound st p t1).1 p t2).2 = .duplicate_ignored ∧
      (receiveInbound (receiveInbound (receiveInbound st p t1).1 p t2).1 p t3).2
        = .ok) := by
  refine ⟨?_, ?_, ?_, ?_⟩
  · intro last hl h0 hw
    exact receive_dup_eq st p t (isDup_true_of_lookup hl (ne_of_gt h0) hw)
  · intro last hl hw
    exact receive_ok st p t (isDup_false_of_lookup_ge hl hw)
  · intro hl
    exact receive_ok st p t (isDup_false_of_lookup_none hl)
  · intro t1 t2 t3 hl h1 h12 h13
    have hok1 := receive_ok st p t1 (isDup_false_of_lookup_none hl)
    have hl1 : alookup (receiveInbound st p t1).1.recentKeys (dedupeKey p)
        = some t1 := hok1.2.2
    have hdup := receive_dup_eq (receiveInbound st p t1).1 p t2
      (isDup_true_of_lookup hl1 (ne_of_gt h1) h12)
    refine ⟨hok1.1, by rw [hdup], ?_⟩
    rw [hdup]
    exact (receive_ok (receiveInbound st p t1).1 p t3
      (isDup_false_of_lookup_ge hl1 h13)).1

/-- Witness for C1: a concrete three-delivery run of the same payload at
times 10, 11 and 12 over the empty peer state. -/
theorem receive_dedupe_window_witness :
    alookup (PeerState.mk [] []).recentKeys
        (dedupeKey ⟨some ⟨"10.0.0.1", 7000, some "a"⟩, some "team", some "hi", none⟩)
      = none ∧
    (0 : Rat) < 10 ∧ (11 : Rat) - 10 < 2 ∧ (2 : Rat) ≤ 12 - 10 ∧
    ((receiveInbound ⟨[], []⟩
        ⟨some ⟨"10.0.0.1", 7000, some "a"⟩, some "team", some "hi", none⟩ 10).2 = .ok ∧
     (receiveInbound (receiveInbound ⟨[], []⟩
          ⟨some ⟨"10.0.0.1", 7000, some "a"⟩, some "team", some "hi", none⟩ 10).1
        ⟨some ⟨"10.0.0.1", 7000, some "a"⟩, some "team", some "hi", none⟩ 11).2
        = .duplicate_ignored ∧
     (receiveInbound (receiveInbound (receiveInbound ⟨[], []⟩
            ⟨some ⟨"10.0.0.1", 7000, some "a"⟩, some "team", some "hi", none⟩ 10).1
          ⟨some ⟨"10.0.0.1", 7000, some "a"⟩, some "team", some "hi", none⟩ 11).1
        ⟨some ⟨"10.0.0.1", 7000, some "a"⟩, some "team", some "hi", none⟩ 12).2 = .ok) :=
  ⟨rfl, by norm_num, by norm_num, by norm_num,
   (receive_dedupe_window ⟨[], []⟩
      ⟨some ⟨"10.0.0.1", 7000, some "a"⟩, some "team", some "hi", none⟩ 0).2.2.2
     10 11 12 rfl (by norm_num) (by norm_num) (by norm_num)⟩

/-- C10: when `/p2p/receive` answers `duplicate_ignored` the peer's entire
state is returned unchanged — the inbox is untouched and the dedupe entry is
not refreshed — so the 2-second window stays anchored at the first accepted
occurrence: after an acceptance at `t1`, a duplicate inside the window
leaves the state exactly as after `t1`, and a delivery at any `t3` with
`t3 - t1 ≥ 2` is accepted again. -/
theorem duplicate_ignored_preserves_state (st : PeerState) (p : Payload) (t : Rat) :
    (isDup st.recentKeys (dedupeKey p) t = true →
      receiveInbound st p t = (st, .duplicate_ignored)) ∧
    (∀ t1 t2 t3 : Rat, isDup st.recentKeys (dedupeKey p) t1 = false → 0 < t1 →
      t2 - t1 < 2 → 2 ≤ t3 - t1 →
      receiveInbound (receiveInbound st p t1).1 p t2
        = ((receiveInbound st p t1).1, .duplicate_ignored) ∧
      (receiveInbound (receiveInbound (receiveInbound st p t1).1 p t2).1 p t3).2
        = .ok) := by
  refine ⟨receive_dup_eq st p t, ?_⟩
  intro t1 t2 t3 hnd h1 h12 h13
  have hok1 := receive_ok st p t1 hnd
  have hl1 : alookup (receiveInbound st p t1).1.recentKeys (dedupeKey p)
      = some t1 := hok1.2.2
  have hdup := receive_dup_eq (receiveInbound st p t1).1 p t2
    (isDup_true_of_lookup hl1 (ne_of_gt h1) h12)
  refine ⟨hdup, ?_⟩
  rw [hdup]
  exact (receive_ok (receiveInbound st p t1).1 p t3
    (isDup_false_of_lookup_ge hl1 h13)).1

/-- Witness for C10: the concrete run of the C1 scenario, observing that the
duplicate at time 11 returns the state after time 10 unchanged. -/
theorem duplicate_ignored_preserves_state_witness :
    isDup (PeerState.mk [] []).recentKeys
        (dedupeKey ⟨some ⟨"10.0.0.2", 7001, none⟩, none, some "yo", none⟩) 10 = false ∧
    (0 : Rat) < 10 ∧ (11 : Rat) - 10 < 2 ∧ (2 : Rat) ≤ 12 - 10 ∧
    (receiveInbound (receiveInbound ⟨[], []⟩
          ⟨some ⟨"10.0.0.2", 7001, none⟩, none, some "yo", none⟩ 10).1
        ⟨some ⟨"10.0.0.2", 7001, none⟩, none, some "yo", none⟩ 11
      = ((receiveInbound ⟨[], []⟩
          ⟨some ⟨"10.0.0.2", 7001, none⟩, none, some "yo", none⟩ 10).1,
         .duplicate_ignored) ∧
     (receiveInbound (receiveInbound (receiveInbound ⟨[], []⟩
            ⟨some ⟨"10.0.0.2", 7001, none⟩, none, some "yo", none⟩ 10).1
          ⟨some ⟨"10.0.0.2", 7001, none⟩, none, some "yo", none⟩ 11).1
        ⟨some ⟨"10.0.0.2", 7001, none⟩, none, some "yo", none⟩ 12).2 = .ok) :=
  ⟨rfl, by norm_num, by norm_num, by norm_num,
   (duplicate_ignored_preserves_state ⟨[], []⟩
      ⟨some ⟨"10.0.0.2", 7001, none⟩, none, some "yo", none⟩ 0).2
     10 11 12 rfl (by norm_num) (by norm_num) (by norm_num)⟩

/-- C4: `GET /peer-inbox` returns exactly the messages enqueued before the
call in enqueue order and leaves the inbox empty, so a second back-to-back
drain returns an empty list and the two drains share no message. -/
theorem drain_inbox_atomic (st : PeerState) :
    (drainInbox st).1 = st.messages ∧
    (drainInbox st).2.messages = [] ∧
    (drainInbox (drainInbox st).2).1 = [] ∧
    ∀ m : StoredMsg, m ∈ (drainInbox st).1 →
      m ∉ (drainInbox (drainInbox st).2).1 := by
  refine ⟨rfl, rfl, rfl, ?_⟩
  intro m _
  simp [drainInbox]

/-- C3: `_forward_to_peers` produces exactly one result entry per
non-excluded target, in input order: an entry `{peer, ok := true}` when the
delivery oracle reports success and `{peer, ok := false, error}` when it
reports a caught exception, so no single failure aborts the remaining
attempts or escapes the fan-out. -/
theorem fanout_per_target_isolated_ordered (deliver : PeerRec → Option String)
    (peers : List PeerRec) (excl : Option String) :
    forwardToPeers deliver peers excl
      = (peers.filter (fun p => ! shouldSkip excl (recId p))).map
          (fwdOutcome deliver) := by
  induction peers with
  | nil => rfl
  | cons p rest ih =>
    by_cases h : shouldSkip excl (recId p) = true
    · simp [forwardToPeers, h, List.filter_cons, ih]
    · have hf : shouldSkip excl (recId p) = false := by rwa [Bool.not_eq_true] at h
      cases hd : deliver p <;>
        simp [forwardToPeers, hf, List.filter_cons, ih, fwdOutcome, hd]

theorem broadcastPeer_nonprivate_eq (deliver : PeerRec → Option String)
    (fp : RawPeer) (pid : String) (c msg : String) (now : Rat) (st : TrackerState)
    (hp : rawPeerId fp = some pid) (hc : c ≠ "private") :
    broadcastPeer deliver (.obj (some fp) (some c) (some msg)) now st
      = (TrackerState.mk st.peers
           (aset st.channels c
             (Channel.mk
               (addMember ((alookup st.channels c).getD ⟨[], []⟩).members pid)
               (((alookup st.channels c).getD ⟨[], []⟩).messages ++ [⟨fp, msg, now⟩]))),
         .bcastOk
           ((addMember ((alookup st.channels c).getD ⟨[], []⟩).members pid).filterMap
             (fun q => alookup st.peers q))
           (forwardToPeers deliver
             ((addMember ((alookup st.channels c).getD ⟨[], []⟩).members pid).filterMap
               (fun q => alookup st.peers q))
             (some pid))) := by
  unfold broadcastPeer
  simp only [hp]
  rw [if_neg hc]

theorem registerFlow_eq (ip : String) (port : Int) (name : String) (now : Rat)
    (st : TrackerState) :
    registerFlow ip port name now st
      = { peers := aset st.peers (peerId ip port) ⟨ip, port, some name, now⟩,
          channels := aset st.channels "general"
            ⟨addMember ((alookup st.channels "general").getD ⟨[], []⟩).members
               (peerId ip port),
             ((alookup st.channels "general").getD ⟨[], []⟩).messages⟩ } := rfl

/-- C2: a well-formed `/broadcast-peer` request whose channel is `private`
leaves the tracker state (peer table and channel table) entirely unchanged,
makes no delivery attempt, and answers `ok` with empty `peers` and empty
`forwarded` lists, whatever the delivery oracle would do. -/
theorem private_broadcast_no_persistence_no_fanout (deliver : PeerRec → Option String)
    (ip : String) (port : Int) (oname : Option String) (msg : String) (now : Rat)
    (st : TrackerState) :
    broadcastPeer deliver (.obj (some ⟨some ip, some port, oname⟩)
        (some "private") (some msg)) now st
      = (st, .bcastOk [] []) := by
  unfold broadcastPeer
  simp only [rawPeerId]
  rw [if_pos trivial]

/-- C5: a well-formed `/broadcast-peer` request on a channel other than
`private` appends the entry `{from, message, ts}` to that channel's log
(creating the channel if absent), adds the sender's pid to the member set,
returns in `peers` the snapshot of the channel's registered members, and
runs the fan-out on exactly that snapshot with the sender excluded,
returning the per-peer outcomes in `forwarded`; the peer table is
untouched. -/
theorem broadcast_nonprivate_persists_and_fans_out (deliver : PeerRec → Option String)
    (ip : String) (port : Int) (oname : Option String) (msg : String) (now : Rat)
    (st : TrackerState) (c : String) (hc : c ≠ "private") :
    ∃ ch' : Channel,
      (broadcastPeer deliver (.obj (some ⟨some ip, some port, oname⟩)
          (some c) (some msg)) now st).1.peers = st.peers ∧
      alookup (broadcastPeer deliver (.obj (some ⟨some ip, some port, oname⟩)
          (some c) (some msg)) now st).1.channels c = some ch' ∧
      ch'.messages = ((alookup st.channels c).getD ⟨[], []⟩).messages
          ++ [⟨⟨some ip, some port, oname⟩, msg, now⟩] ∧
      ch'.members
        = addMember ((alookup st.channels c).getD ⟨[], []⟩).members (peerId ip port) ∧
      peerId ip port ∈ ch'.members ∧
      (broadcastPeer deliver (.obj (some ⟨some ip, some port, oname⟩)
          (some c) (some msg)) now st).2
        = .bcastOk (ch'.members.filterMap (fun q => alookup st.peers q))
            (forwardToPeers deliver
              (ch'.members.filterMap (fun q => alookup st.peers q))
              (some (peerId ip port))) := by
  have heq := broadcastPeer_nonprivate_eq deliver ⟨some ip, some port, oname⟩
    (peerId ip port) c msg now st rfl hc
  refine ⟨⟨addMember ((alookup st.channels c).getD ⟨[], []⟩).members (peerId ip port),
          ((alookup st.channels c).getD ⟨[], []⟩).messages
            ++ [⟨⟨some ip, some port, oname⟩, msg, now⟩]⟩,
    ?_, ?_, rfl, rfl, mem_addMember_self _ _, ?_⟩
  · rw [heq]
  · rw [heq]
    exact alookup_aset _ _ _
  · rw [heq]

/-- Witness for C5: a concrete broadcast to channel `team` over the empty
tracker state, with an all-failing delivery oracle. -/
theorem broadcast_nonprivate_witness :
    ("team" : String) ≠ "private" ∧
    (∃ ch' : Channel,
      (broadcastPeer (fun _ => some "boom")
          (.obj (some ⟨some "10.0.0.1", some 7000, none⟩) (some "team") (some "hi"))
          5 ⟨[], []⟩).1.peers = (TrackerState.mk [] []).peers ∧
      alookup (broadcastPeer (fun _ => some "boom")
          (.obj (some ⟨some "10.0.0.1", some 7000, none⟩) (some "team") (some "hi"))
          5 ⟨[], []⟩).1.channels "team" = some ch' ∧
      ch'.messages
        = ((alookup (TrackerState.mk [] []).channels "team").getD ⟨[], []⟩).messages
          ++ [⟨⟨some "10.0.0.1", some 7000, none⟩, "hi", 5⟩] ∧
      ch'.members
        = addMember ((alookup (TrackerState.mk [] []).channels "team").getD
            ⟨[], []⟩).members (peerId "10.0.0.1" 7000) ∧
      peerId "10.0.0.1" 7000 ∈ ch'.members ∧
      (broadcastPeer (fun _ => some "boom")
          (.obj (some ⟨some "10.0.0.1", some 7000, none⟩) (some "team") (some "hi"))
          5 ⟨[], []⟩).2
        = .bcastOk (ch'.members.filterMap (fun q => alookup (TrackerState.mk [] []).peers q))
            (forwardToPeers (fun _ => some "boom")
              (ch'.members.filterMap (fun q => alookup (TrackerState.mk [] []).peers q))
              (some (peerId "10.0.0.1" 7000)))) :=
  ⟨by decide,
   broadcast_nonprivate_persists_and_fans_out (fun _ => some "boom")
     "10.0.0.1" 7000 none "hi" 5 ⟨[], []⟩ "team" (by decide)⟩

/-- C6: registering the same `(ip, port, name)` twice upserts by the
identity key `peerId = ip:port`: provided the table's keys are unique (an
invariant the upsert preserves), after the second call there is exactly one
entry for that identity, the table length is unchanged by the second call,
and both calls report the same peer count. -/
theorem register_upsert_idempotent (ip : String) (port : Int) (oname : Option String)
    (t1 t2 : Rat) (st : TrackerState) (hnd : (st.peers.map Prod.fst).Nodup) :
    countKey (submitInfo (.obj (some ip) (some port) oname) t2
        (submitInfo (.obj (some ip) (some port) oname) t1 st).1).1.peers
      (peerId ip port) = 1 ∧
    (submitInfo (.obj (some ip) (some port) oname) t2
        (submitInfo (.obj (some ip) (some port) oname) t1 st).1).1.peers.length
      = (submitInfo (.obj (some ip) (some port) oname) t1 st).1.peers.length ∧
    (submitInfo (.obj (some ip) (some port) oname) t1 st).2
      = .submitOk (submitInfo (.obj (some ip) (some port) oname) t1 st).1.peers.length ∧
    (submitInfo (.obj (some ip) (some port) oname) t2
        (submitInfo (.obj (some ip) (some port) oname) t1 st).1).2
      = .submitOk (submitInfo (.obj (some ip) (some port) oname) t1 st).1.peers.length := by
  have hany : (submitInfo (.obj (some ip) (some port) oname) t1 st).1.peers.any
      (fun kv => kv.1 = peerId ip port) = true := any_aset_self _ _ _
  refine ⟨?_, ?_, rfl, ?_⟩
  · show countKey (aset (submitInfo (.obj (some ip) (some port) oname) t1 st).1.peers
        (peerId ip port) ⟨ip, port, oname, t2⟩) (peerId ip port) = 1
    rw [countKey_aset_existing _ hany]
    show countKey (aset st.peers (peerId ip port) ⟨ip, port, oname, t1⟩)
        (peerId ip port) = 1
    exact countKey_aset_of_nodup _ hnd
  · exact length_aset_of_any _ hany
  · exact congrArg TResp.submitOk (length_aset_of_any _ hany)

/-- Witness for C6: registering `10.0.0.1:7000` twice over the empty
tracker. -/
theorem register_upsert_idempotent_witness :
    ((TrackerState.mk [] []).peers.map Prod.fst).Nodup ∧
    (countKey (submitInfo (.obj (some "10.0.0.1") (some 7000) (some "a")) 2
        (submitInfo (.obj (some "10.0.0.1") (some 7000) (some "a")) 1 ⟨[], []⟩).1).1.peers
      (peerId "10.0.0.1" 7000) = 1 ∧
    (submitInfo (.obj (some "10.0.0.1") (some 7000) (some "a")) 2
        (submitInfo (.obj (some "10.0.0.1") (some 7000) (some "a")) 1 ⟨[], []⟩).1).1.peers.length
      = (submitInfo (.obj (some "10.0.0.1") (some 7000) (some "a")) 1 ⟨[], []⟩).1.peers.length ∧
    (submitInfo (.obj (some "10.0.0.1") (some 7000) (some "a")) 1 ⟨[], []⟩).2
      = .submitOk (submitInfo (.obj (some "10.0.0.1") (some 7000) (some "a")) 1
          ⟨[], []⟩).1.peers.length ∧
    (submitInfo (.obj (some "10.0.0.1") (some 7000) (some "a")) 2
        (submitInfo (.obj (some "10.0.0.1") (some 7000) (some "a")) 1 ⟨[], []⟩).1).2
      = .submitOk (submitInfo (.obj (some "10.0.0.1") (some 7000) (some "a")) 1
          ⟨[], []⟩).1.peers.length) :=
  ⟨by simp, register_upsert_idempotent "10.0.0.1" 7000 (some "a") 1 2 ⟨[], []⟩ (by simp)⟩

/-- C7 counterexample: a successful `/submit-info` registration on the empty
tracker leaves the channel table empty — the register operation itself does
not join the peer to `general`, contrary to the claim. -/
theorem register_succeeds_without_autojoin :
    (submitInfo (.obj (some "10.0.0.1") (some 7000) (some "alice")) 1 ⟨[], []⟩).2
      = .submitOk 1 ∧
    alookup (submitInfo (.obj (some "10.0.0.1") (some 7000) (some "alice")) 1
        ⟨[], []⟩).1.channels "general" = none :=
  ⟨rfl, rfl⟩

/-- C7 amended: the tracker's register operation only upserts the peer
record; the auto-join to `general` is performed by the peer agent's
`register_to_tracker` flow, which follows the registration with an
`/add-list` call for `general` — after that two-step flow the peer's pid is
a member of `general` and its record is in the peer table. -/
theorem register_then_addlist_joins_general (ip : String) (port : Int)
    (name : String) (now : Rat) (st : TrackerState) :
    ∃ ch : Channel,
      alookup (registerFlow ip port name now st).channels "general" = some ch ∧
      peerId ip port ∈ ch.members ∧
      alookup (registerFlow ip port name now st).peers (peerId ip port)
        = some ⟨ip, port, some name, now⟩ := by
  rw [registerFlow_eq]
  exact ⟨_, alookup_aset _ _ _, mem_addMember_self _ _, alookup_aset _ _ _⟩

/-- C8 counterexample: a registration body missing the `name` field is not
rejected — it answers `ok` and creates a peer record — so missing `name`
does not produce a `MalformedPayload` error nor leave the table unchanged. -/
theorem register_missing_name_accepted :
    (submitInfo (.obj (some "10.0.0.2") (some 7001) none) 1 ⟨[], []⟩).2
      = .submitOk 1 ∧
    (submitInfo (.obj (some "10.0.0.2") (some 7001) none) 1 ⟨[], []⟩).1.peers
      = [(peerId "10.0.0.2" 7001, ⟨"10.0.0.2", 7001, none, 1⟩)] :=
  ⟨rfl, rfl⟩

/-- C8 amended: an unparsable `/submit-info` body fails with a 400 client
error carrying a description and leaves the peer table unchanged; a parsable
body missing `ip` or `port` fails with an error carrying a description —
surfaced by the top-level handler as a 500 server error — and leaves the
table unchanged; a body missing only `name` is accepted and upserts the
record. -/
theorem register_malformed_behavior (st : TrackerState) (t : Rat) (d : String)
    (oport : Option Int) (oname : Option String) :
    submitInfo (.malformed d) t st = (st, .badRequest "invalid json" (some d)) ∧
    statusOf (submitInfo (.malformed d) t st).2 = 400 ∧
    submitInfo (.obj none oport oname) t st = (st, .serverError "KeyError: ip") ∧
    (∀ ip : String, submitInfo (.obj (some ip) none oname) t st
        = (st, .serverError "KeyError: port")) ∧
    statusOf (submitInfo (.obj none oport oname) t st).2 = 500 ∧
    (∀ (ip : String) (port : Int),
      submitInfo (.obj (some ip) (some port) oname) t st
        = ({ st with peers := aset st.peers (peerId ip port) ⟨ip, port, oname, t⟩ },
           .submitOk (aset st.peers (peerId ip port) ⟨ip, port, oname, t⟩).length)) :=
  ⟨rfl, rfl, rfl, fun _ => rfl, rfl, fun _ _ => rfl⟩

/-- C9: `GET /get-list?channel=NAME` for an absent channel returns the name
with empty `peers` and `messages` lists and leaves the tracker state
untouched — the read does not create the channel. -/
theorem getlist_absent_channel (st : TrackerState) (c : String)
    (h : alookup st.channels c = none) :
    getList (some c) st = (st, .chanList c [] []) := by
  show (st, TResp.chanList c
      (((alookup st.channels c).getD ⟨[], []⟩).members.filterMap
        (fun p => alookup st.peers p))
      ((alookup st.channels c).getD ⟨[], []⟩).messages)
    = (st, .chanList c [] [])
  rw [h]
  rfl

/-- Witness for C9: querying the unknown channel `team` on a tracker that
only knows channel `general`. -/
theorem getlist_absent_channel_witness :
    alookup (TrackerState.mk [] [("general", ⟨["a:1"], []⟩)]).channels "team"
      = none ∧
    getList (some "team") (TrackerState.mk [] [("general", ⟨["a:1"], []⟩)])
      = (⟨[], [("general", ⟨["a:1"], []⟩)]⟩, .chanList "team" [] []) :=
  ⟨by decide, getlist_absent_channel ⟨[], [("general", ⟨["a:1"], []⟩)]⟩ "team" (by decide)⟩

end BKSysNet
